import Mathlib

/-!
# Formal model of the AbrO HR platform core

A shallow embedding, in Lean 4, of the two core subsystems of the
`abrohr-platform` repository:

* the attrition risk scoring engine (`attritionEngine` service:
  `calculateAttritionRisk`, the four sub-score functions,
  `determineRiskLevel`, `generateRecommendation`, `calculateStatistics`,
  `generateAttritionReport`), and
* the ingestion and validation pipeline (`FileParserService.validateAndNormalize`).

JavaScript numbers are modelled by exact rationals (`ℚ`); the one operation
that leaves the rationals, `Math.sqrt` in the consistency sub-score, is
modelled by `Real.sqrt`, so consistency-dependent quantities live in `ℝ`.
`Math.round` is modelled by `fun x => ⌊x + 1/2⌋` (round half towards +∞),
which is its behaviour on the values arising here.

External libraries (date-fns, the JS `Date` constructor) are not code of
this repository; their behaviour is abstracted into a `DateEnv` record of
parsing functions over which the theorems quantify.
-/

namespace AbrOHR

/-- The four attendance statuses accepted by the platform
(`VALID_STATUSES` in the file parser, and the string constants matched by
the scoring engine). -/
inductive Status where
  | present
  | plannedLeave
  | unplannedLeave
  | absent
deriving DecidableEq, Repr

/-- Number of records with status `Absent`
(`records.filter(r => r.status === 'Absent').length`). -/
def countAbsent (records : List Status) : ℕ :=
  records.countP (· = Status.absent)

/-- The rate `absentDays / totalDays` for a record list (NaN at `[]` in JS; here `0/0 = 0`,
and the theorems that depend on it carry a non-emptiness hypothesis). -/
def absentRate (records : List Status) : ℚ :=
  (countAbsent records : ℚ) / (records.length : ℚ)

/-- Model of `calculateAbsenteeismScore` from the attrition engine: piecewise in the
absent rate, with a linear ramp `rate * 800` below the 5% threshold. -/
def calculateAbsenteeismScore (records : List Status) : ℚ :=
  let rate := absentRate records
  if 1/5 ≤ rate then 100
  else if 3/20 ≤ rate then 85
  else if 1/10 ≤ rate then 65
  else if 1/20 ≤ rate then 40
  else rate * 800

/-- Model of `calculateLeavePatternScore` from the attrition engine: ratio of
unplanned to total leave days, piecewise, `0` when there are no leave rows. -/
def calculateLeavePatternScore (records : List Status) : ℚ :=
  let totalLeaves := records.countP
    (fun r => r = Status.plannedLeave ∨ r = Status.unplannedLeave)
  if totalLeaves = 0 then 0
  else
    let unplannedLeaves := records.countP (· = Status.unplannedLeave)
    let unplannedRatio := (unplannedLeaves : ℚ) / (totalLeaves : ℚ)
    if 4/5 ≤ unplannedRatio then 90
    else if 3/5 ≤ unplannedRatio then 70
    else if 2/5 ≤ unplannedRatio then 50
    else if 1/5 ≤ unplannedRatio then 30
    else unplannedRatio * 100

/-- The `records.forEach` loop of `calculateConsistencyScore`: grows
`currentWeek` record by record and emits the week's absent rate whenever the
week reaches 5 records or the input ends (`index === records.length - 1`,
i.e. the rest is empty), so the final partial week is kept. -/
def weeklyRatesLoop : List Status → List Status → List ℚ
  | _, [] => []
  | currentWeek, record :: rest =>
    let currentWeek' := currentWeek ++ [record]
    if currentWeek'.length = 5 ∨ rest = [] then
      ((countAbsent currentWeek' : ℚ) / (currentWeek'.length : ℚ)) :: weeklyRatesLoop [] rest
    else
      weeklyRatesLoop currentWeek' rest

/-- The weekly absent rates computed by `calculateConsistencyScore`. -/
def weeklyRates (records : List Status) : List ℚ :=
  weeklyRatesLoop [] records

/-- Mean of a list of rationals (`reduce((a,b) => a+b, 0) / length`). -/
def listMean (xs : List ℚ) : ℚ := xs.sum / (xs.length : ℚ)

/-- Population variance of a list of rationals, as computed by
`calculateConsistencyScore`. -/
def listVariance (xs : List ℚ) : ℚ :=
  ((xs.map (fun r => (r - listMean xs) ^ 2)).sum) / (xs.length : ℚ)

/-- Model of `calculateConsistencyScore`: `min(stdDev * 200, 100)` over the weekly
absent rates, `0` with fewer than two chunks.  `Math.sqrt` is modelled by
`Real.sqrt`, so the result lives in `ℝ`. -/
noncomputable def calculateConsistencyScore (records : List Status) : ℝ :=
  let rates := weeklyRates records
  if rates.length < 2 then 0
  else min (Real.sqrt (listVariance rates) * 200) 100

/-- JS `Array.prototype.slice(s, e)` with possibly negative indices. -/
def jsSlice (l : List α) (s e : ℤ) : List α :=
  let n : ℤ := l.length
  let s' := (max (if s < 0 then n + s else s) 0).toNat
  let e' := (max (if e < 0 then n + e else e) 0).toNat
  (l.drop s').take (e' - s')

/-- JS `Array.prototype.slice(s)` (to the end) with a possibly negative index. -/
def jsSliceFrom (l : List α) (s : ℤ) : List α :=
  jsSlice l s l.length

/-- Model of `calculateRecentTrendScore`: 0 below 20 records, else a piecewise
function of the difference between the absent rate of `slice(-15)` and that
of `slice(-30, -15)`. -/
def calculateRecentTrendScore (records : List Status) : ℚ :=
  if records.length < 20 then 0
  else
    let recentRecords := jsSliceFrom records (-15)
    let previousRecords := jsSlice records (-30) (-15)
    let recentAbsentRate := (countAbsent recentRecords : ℚ) / (recentRecords.length : ℚ)
    let previousAbsentRate := (countAbsent previousRecords : ℚ) / (previousRecords.length : ℚ)
    let trend := recentAbsentRate - previousAbsentRate
    if 3/20 ≤ trend then 100
    else if 1/10 ≤ trend then 75
    else if 1/20 ≤ trend then 50
    else if 0 < trend then trend * 500
    else 0

/-- The discrete risk bands emitted by the engine. -/
inductive RiskLevel where
  | high
  | moderate
  | low
  | insufficientData
deriving DecidableEq, Repr

/-- Model of `determineRiskLevel` from the attrition engine: `>= 70 → High`,
`>= 40 → Moderate`, else `Low`. -/
noncomputable def determineRiskLevel (score : ℝ) : RiskLevel :=
  if 70 ≤ score then .high
  else if 40 ≤ score then .moderate
  else .low

/-- JS `Math.round` (round half towards `+∞`) on the reals. -/
noncomputable def jsRound (x : ℝ) : ℤ := ⌊x + 1/2⌋

/-- JS `Math.round(x * 10) / 10` for a rational input (rounding to one
decimal place, as applied to the four sub-scores). -/
def roundTenth (x : ℚ) : ℚ := (⌊x * 10 + 1/2⌋ : ℤ) / 10

/-- JS `Math.round(x * 10) / 10` for a real input (as applied to the composite
score and the consistency sub-score). -/
noncomputable def roundTenthR (x : ℝ) : ℚ := ((jsRound (x * 10) : ℤ) : ℚ) / 10

/-- The weighted composite risk score of `calculateAttritionRisk`:
`absenteeism * 0.35 + leavePattern * 0.25 + consistency * 0.25 +
recentTrend * 0.15`. -/
noncomputable def compositeScore (records : List Status) : ℝ :=
  (calculateAbsenteeismScore records : ℝ) * 0.35 +
  (calculateLeavePatternScore records : ℝ) * 0.25 +
  calculateConsistencyScore records * 0.25 +
  (calculateRecentTrendScore records : ℝ) * 0.15

/-- The four rounded sub-scores embedded in a risk assessment. -/
structure FactorScores where
  absenteeism : ℚ
  leavePattern : ℚ
  consistency : ℚ
  recentTrend : ℚ
deriving DecidableEq, Repr

/-- The statistics block of `calculateStatistics`.  The two rates are kept
as exact percentages; the `toFixed(2) + '%'` string formatting of the
source is dropped from the model. -/
structure Statistics where
  totalDays : ℕ
  presentDays : ℕ
  absentDays : ℕ
  plannedLeaveDays : ℕ
  unplannedLeaveDays : ℕ
  attendanceRate : ℚ
  absenteeismRate : ℚ
deriving DecidableEq, Repr

/-- Model of `calculateStatistics` from the attrition engine. -/
def calculateStatistics (records : List Status) : Statistics :=
  let total := records.length
  let present := records.countP (· = Status.present)
  let absent := records.countP (· = Status.absent)
  let plannedLeave := records.countP (· = Status.plannedLeave)
  let unplannedLeave := records.countP (· = Status.unplannedLeave)
  { totalDays := total
    presentDays := present
    absentDays := absent
    plannedLeaveDays := plannedLeave
    unplannedLeaveDays := unplannedLeave
    attendanceRate := ((present : ℚ) / (total : ℚ)) * 100
    absenteeismRate := ((absent : ℚ) / (total : ℚ)) * 100 }

/-- Model of `generateRecommendation` from the attrition engine (the `score`
argument is unused by the source as well). -/
def generateRecommendation (riskLevel : RiskLevel) (_score : ℝ) : String :=
  if riskLevel = RiskLevel.high then
    "URGENT: Schedule immediate 1-on-1 meeting. Investigate causes of absenteeism. Consider retention strategies."
  else if riskLevel = RiskLevel.moderate then
    "MONITOR: Regular check-ins recommended. Address any workplace concerns proactively."
  else
    "LOW RISK: Continue standard engagement practices. Employee shows stable attendance."

/-- The per-employee assessment returned by `calculateAttritionRisk`.
`email`, `factors` and `statistics` are `Option`s because the
insufficient-data early return omits `email` and `statistics` and returns
an empty `factors` object. -/
structure RiskAssessment where
  employeeId : String
  name : String
  email : Option String
  score : ℚ
  riskLevel : RiskLevel
  factors : Option FactorScores
  statistics : Option Statistics
  recommendation : String
deriving DecidableEq, Repr

/-- An employee row of the store, together with the attendance records the
store returns for the analysis window (ordered by date ascending, with only
the status kept, which is all the scoring engine reads). -/
structure Employee where
  id : String
  companyId : String
  employeeId : String
  name : String
  email : String
  attendance : List Status
deriving DecidableEq, Repr

/-- The body of `calculateAttritionRisk` after the store fetch: the
insufficient-data early return, the four sub-scores, the weighted
composite, the risk level and the final assessment object. -/
noncomputable def riskAssessmentOf (employee : Employee) : RiskAssessment :=
  let attendanceRecords := employee.attendance
  if attendanceRecords = [] then
    { employeeId := employee.employeeId
      name := employee.name
      email := none
      score := 0
      riskLevel := .insufficientData
      factors := none
      statistics := none
      recommendation := "Need at least 3 months of attendance data" }
  else
    let composite := compositeScore attendanceRecords
    let riskLevel := determineRiskLevel composite
    { employeeId := employee.employeeId
      name := employee.name
      email := some employee.email
      score := roundTenthR composite
      riskLevel := riskLevel
      factors := some
        { absenteeism := roundTenth (calculateAbsenteeismScore attendanceRecords)
          leavePattern := roundTenth (calculateLeavePatternScore attendanceRecords)
          consistency := roundTenthR (calculateConsistencyScore attendanceRecords)
          recentTrend := roundTenth (calculateRecentTrendScore attendanceRecords) }
      statistics := some (calculateStatistics attendanceRecords)
      recommendation := generateRecommendation riskLevel composite }

/-- Model of `calculateAttritionRisk`: `findUnique` on the store by `id`
(`Employee not found` when absent), then the assessment body. -/
noncomputable def calculateAttritionRisk (store : List Employee) (employeeId : String) :
    Except String RiskAssessment :=
  match store.find? (fun e => e.id == employeeId) with
  | none => .error "Employee not found"
  | some employee => .ok (riskAssessmentOf employee)

/-- The per-level summary counts of a company report. -/
structure ReportSummary where
  high : ℕ
  moderate : ℕ
  low : ℕ
deriving DecidableEq, Repr

/-- The company-wide report of `generateAttritionReport`
(the `generatedAt` wall-clock timestamp is dropped from the model). -/
structure CompanyRiskReport where
  companyId : String
  period : String
  totalEmployees : ℕ
  summary : ReportSummary
  employees : List RiskAssessment
deriving DecidableEq, Repr

/-- Model of `generateAttritionReport`: the company's employees are scored one by
one by `calculateAttritionRisk` (a failing employee is logged and skipped),
results are sorted by score descending (JS `sort` is stable, ties keep
discovery order), and the summary counts filter by risk level. -/
noncomputable def generateAttritionReport (store : List Employee) (companyId : String)
    (months : ℕ) : CompanyRiskReport :=
  let employees := store.filter (fun e => e.companyId == companyId)
  let results := employees.filterMap
    (fun employee => (calculateAttritionRisk store employee.id).toOption)
  let sorted := results.mergeSort (fun a b => decide (b.score ≤ a.score))
  { companyId := companyId
    period := toString months ++ " months"
    totalEmployees := employees.length
    summary :=
      { high := sorted.countP (fun r => r.riskLevel = RiskLevel.high)
        moderate := sorted.countP (fun r => r.riskLevel = RiskLevel.moderate)
        low := sorted.countP (fun r => r.riskLevel = RiskLevel.low) }
    employees := sorted }

/-! ## The ingestion and validation pipeline (`FileParserService.validateAndNormalize`) -/

/-- The behaviour of the external date library calls made by the row
validator: `parseDate(s, 'yyyy-MM-dd', new Date())` followed by the
`isNaN(getTime())` check (`none` models an invalid date), `isWeekend`, and
`new Date(s)` followed by the `isNaN` check.  Timestamps are epoch
milliseconds as integers.  The pipeline theorems quantify over this record,
since date-fns and the `Date` constructor are not code of this repository. -/
structure DateEnv where
  parseDate : String → Option ℤ
  isWeekend : ℤ → Bool
  parseDateTime : String → Option ℤ

/-- The `REQUIRED_COLUMNS` list from the file parser. -/
def REQUIRED_COLUMNS : List String :=
  ["employee_id", "employee_name", "date", "status", "informed_time", "department", "manager_email"]

/-- The `VALID_STATUSES` list from the file parser. -/
def VALID_STATUSES : List String :=
  ["Present", "Planned Leave", "Unplanned Leave", "Absent"]

/-- One parsed tabular row: the ordered (column name, cell value) pairs of
a record object produced by the CSV/Excel reader. -/
abbrev Row := List (String × String)

/-- Property access `record.col` on a row object; a missing column reads as
the empty string (both `undefined` and `''` are falsy to every check the
validator performs). -/
def rowGet (record : Row) (key : String) : String :=
  match record.find? (fun p => p.1 == key) with
  | some p => p.2
  | none => ""

/-- JS `Object.keys(record)`. -/
def rowKeys (record : Row) : List String := record.map (·.1)

/-- The duplicate-detection key `` `${record.employee_id}_${record.date}` ``. -/
def rowKey (record : Row) : String :=
  rowGet record "employee_id" ++ "_" ++ rowGet record "date"

/-- JS `String.prototype.trim`: strip leading and trailing whitespace
(`Char.isWhitespace` stands in for the JS whitespace class; the inputs of
interest are ASCII).  Implemented by structural recursion over the
character list so that it evaluates inside the kernel. -/
def jsTrim (s : String) : String :=
  ⟨((s.data.dropWhile Char.isWhitespace).reverse.dropWhile Char.isWhitespace).reverse⟩

/-- JS `String.prototype.toLowerCase` (ASCII case folding via
`Char.toLower`). -/
def jsToLower (s : String) : String :=
  ⟨s.data.map Char.toLower⟩

/-- Split a character list on a separator (used to model the `@`-structure
of the email regular expression). -/
def splitOnChar (sep : Char) : List Char → List (List Char)
  | [] => [[]]
  | c :: cs =>
    if c = sep then [] :: splitOnChar sep cs
    else
      match splitOnChar sep cs with
      | [] => [[c]]
      | part :: parts => (c :: part) :: parts

/-- The manager-email regular expression `^[^\s@]+@[^\s@]+\.[^\s@]+$`: one
or more non-whitespace non-`@` characters, an `@`, one or more, a dot, one
or more.  The middle and final classes also admit dots, so the test is
equivalent to: exactly one `@`, no whitespace, a non-empty local part, and
a dot strictly inside the part after the `@`. -/
def jsEmailTest (s : String) : Bool :=
  match splitOnChar '@' s.data with
  | [localPart, domainPart] =>
      !localPart.isEmpty && localPart.all (fun c => !c.isWhitespace) &&
      !domainPart.isEmpty && domainPart.all (fun c => !c.isWhitespace) &&
      ((domainPart.drop 1).dropLast.contains '.')
  | _ => false

/-- The `employee_id` checks of the row validator. -/
def errsEmployeeId (record : Row) : List String :=
  let v := rowGet record "employee_id"
  if v = "" ∨ jsTrim v = "" then ["employee_id is required"]
  else if 20 < v.length then ["employee_id must be max 20 characters"]
  else []

/-- The `employee_name` checks of the row validator. -/
def errsEmployeeName (record : Row) : List String :=
  let v := rowGet record "employee_name"
  if v = "" ∨ jsTrim v = "" then ["employee_name is required"]
  else if 100 < v.length then ["employee_name must be max 100 characters"]
  else []

/-- The `date` checks of the row validator: parse failure, then weekend. -/
def errsDate (env : DateEnv) (record : Row) : List String :=
  match env.parseDate (rowGet record "date") with
  | none => ["date must be in YYYY-MM-DD format"]
  | some d => if env.isWeekend d then ["date cannot be a weekend (Saturday/Sunday)"] else []

/-- The `status` check of the row validator. -/
def errsStatus (record : Row) : List String :=
  if VALID_STATUSES.contains (rowGet record "status") then []
  else ["status must be one of: Present, Planned Leave, Unplanned Leave, Absent"]

/-- The `informed_time` checks of the row validator.  Comparisons against an
unparsed leave date are `false` in JS (`NaN` propagation), modelled by the
`none` branches producing no error. -/
def errsInformedTime (env : DateEnv) (record : Row) : List String :=
  let status := rowGet record "status"
  if status = "Planned Leave" ∨ status = "Unplanned Leave" then
    let informedRaw := rowGet record "informed_time"
    if informedRaw = "" then ["informed_time is required for leave records"]
    else
      match env.parseDateTime informedRaw with
      | none => ["informed_time must be valid datetime"]
      | some informed =>
        if status = "Planned Leave" then
          match env.parseDate (rowGet record "date") with
          | some d =>
            if d < informed then ["informed_time must be before the leave date for planned leave"]
            else []
          | none => []
        else
          match env.parseDate (rowGet record "date") with
          | some d =>
            if 24 < ((|d - informed| : ℤ) : ℚ) / (1000 * 60 * 60) then
              ["informed_time must be within 24 hours of date for unplanned leave"]
            else []
          | none => []
  else []

/-- The `department` checks of the row validator. -/
def errsDepartment (record : Row) : List String :=
  let v := rowGet record "department"
  if v = "" ∨ jsTrim v = "" then ["department is required"]
  else if 50 < v.length then ["department must be max 50 characters"]
  else []

/-- The `manager_email` check of the row validator. -/
def errsManagerEmail (record : Row) : List String :=
  let v := rowGet record "manager_email"
  if v = "" ∨ jsEmailTest v = false then ["manager_email must be a valid email address"]
  else []

/-- The duplicate-key check of the row validator. -/
def errsDuplicate (record : Row) (seen : List String) : List String :=
  if seen.contains (rowKey record) then ["duplicate employee_id + date combination"] else []

/-- The full `rowErrors` list collected for one row, in push order. -/
def rowErrorsOf (env : DateEnv) (record : Row) (seen : List String) : List String :=
  errsEmployeeId record ++ errsEmployeeName record ++ errsDate env record ++
  errsStatus record ++ errsInformedTime env record ++ errsDepartment record ++
  errsManagerEmail record ++ errsDuplicate record seen

/-- A collected validation error: row-scoped (`{row, errors}`) or
employee-scoped (`{employee, errors}`). -/
inductive ValidationError where
  | rowError (row : ℕ) (errors : List String)
  | employeeError (employee : String) (errors : List String)
deriving DecidableEq, Repr

/-- A normalized attendance record as pushed onto `validRecords`. -/
structure NormRecord where
  employeeId : String
  employeeName : String
  date : Option ℤ
  status : String
  informedTime : Option ℤ
  department : String
  managerEmail : String
deriving DecidableEq, Repr

/-- The normalization applied to a row all of whose checks passed. -/
def normalizeRecord (env : DateEnv) (record : Row) : NormRecord :=
  { employeeId := jsTrim (rowGet record "employee_id")
    employeeName := jsTrim (rowGet record "employee_name")
    date := env.parseDate (rowGet record "date")
    status := rowGet record "status"
    informedTime :=
      if rowGet record "informed_time" = "" then none
      else env.parseDateTime (rowGet record "informed_time")
    department := jsTrim (rowGet record "department")
    managerEmail := jsToLower (jsTrim (rowGet record "manager_email")) }

/-- The `records.forEach` loop of `validateAndNormalize`: carries the row
index, the `seenKeys` set (a list with membership-test semantics, extended
only on first sight), and produces the collected row errors and the valid
normalized records, in file order.  `index + 2` reproduces the
`rowNumber = index + 2` convention (header line plus 0-indexing). -/
def processRows (env : DateEnv) : ℕ → List String → List Row →
    List ValidationError × List NormRecord
  | _, _, [] => ([], [])
  | index, seen, record :: rest =>
    let rowErrors := rowErrorsOf env record seen
    let key := rowKey record
    let seen' := if seen.contains key then seen else seen ++ [key]
    let result := processRows env (index + 1) seen' rest
    (if rowErrors = [] then result.1 else .rowError (index + 2) rowErrors :: result.1,
     if rowErrors = [] then normalizeRecord env record :: result.2 else result.2)

/-- The grouping `employeeGroups` of the volume check: employee ids of the
valid records in order of first appearance (JS object key insertion order). -/
def employeeIdsInOrder (valids : List NormRecord) : List String :=
  valids.foldl (fun acc r => if acc.contains r.employeeId then acc else acc ++ [r.employeeId]) []

/-- The 55–70 working-days volume check: one employee-scoped error per
employee whose valid row count falls outside the range; `validRecords` is
only read, never filtered. -/
def volumeErrors (valids : List NormRecord) : List ValidationError :=
  (employeeIdsInOrder valids).filterMap (fun empId =>
    let count := (valids.filter (fun r => r.employeeId == empId)).length
    if count < 55 ∨ 70 < count then
      some (.employeeError empId
        ["Employee must have approximately 63 working days of data (3 months, 5-day week). Found "
          ++ toString count ++ " days."])
    else none)

/-- The result object of `validateAndNormalize` (`invalidRecords` is
`errors.length` in the source, volume errors included). -/
structure ParseResult where
  valid : Bool
  validRecords : List NormRecord
  invalidRecords : ℕ
  errors : List ValidationError
deriving DecidableEq, Repr

/-- Model of `validateAndNormalize`: empty-file check, whole-file missing-columns
check (fatal `throw`, modelled by `Except.error`), the per-row loop, then
the advisory volume check appended to the error list. -/
def validateAndNormalize (env : DateEnv) (records : List Row) : Except String ParseResult :=
  match records with
  | [] => .error "File is empty"
  | first :: _ =>
    let columns := rowKeys first
    let missingColumns := REQUIRED_COLUMNS.filter (fun col => !columns.contains col)
    if missingColumns ≠ [] then
      .error ("Missing required columns: " ++ String.intercalate ", " missingColumns)
    else
      let rowResult := processRows env 0 [] records
      let errors := rowResult.1 ++ volumeErrors rowResult.2
      .ok
        { valid := errors.isEmpty
          validRecords := rowResult.2
          invalidRecords := errors.length
          errors := errors }

/-! ## Derived notions used by the claims -/

/-- The canonical `rowErrors` list of row `j` of a file: its validation
errors computed against the keys of the rows before it (which is the
`seenKeys` membership state when the loop reaches row `j`). -/
def rowErrsAt (env : DateEnv) (records : List Row) (j : ℕ) : List String :=
  rowErrorsOf env (records.getD j []) ((records.take j).map rowKey)

/-- The four messages the `informed_time` block can push. -/
def informedTimeMsgs : List String :=
  ["informed_time is required for leave records",
   "informed_time must be valid datetime",
   "informed_time must be before the leave date for planned leave",
   "informed_time must be within 24 hours of date for unplanned leave"]

/-- A row error list contains an `informed_time` validation error. -/
def hasInformedTimeError (errs : List String) : Prop :=
  ∃ m ∈ informedTimeMsgs, m ∈ errs

/-- Claim C1 as stated by the specification: with a parseable leave date
and informed time, a `Planned Leave` row gets an informed-time error iff
the informed timestamp is **not strictly before** the leave date, and an
`Unplanned Leave` row iff the absolute difference exceeds 24 hours. -/
def claimC1Statement : Prop :=
  ∀ (env : DateEnv) (record : Row) (seen : List String) (d t : ℤ),
    env.parseDate (rowGet record "date") = some d →
    rowGet record "informed_time" ≠ "" →
    env.parseDateTime (rowGet record "informed_time") = some t →
    (rowGet record "status" = "Planned Leave" →
      (hasInformedTimeError (rowErrorsOf env record seen) ↔ ¬ t < d)) ∧
    (rowGet record "status" = "Unplanned Leave" →
      (hasInformedTimeError (rowErrorsOf env record seen) ↔
        24 < ((|d - t| : ℤ) : ℚ) / (1000 * 60 * 60)))

/-- Claim C2 as stated by the specification: the three summary counts
always add up to the length of the report's employee list. -/
def claimC2Statement : Prop :=
  ∀ (store : List Employee) (companyId : String) (months : ℕ),
    (generateAttritionReport store companyId months).summary.high +
    (generateAttritionReport store companyId months).summary.moderate +
    (generateAttritionReport store companyId months).summary.low =
    (generateAttritionReport store companyId months).employees.length

/-- The survival conjunct of claim C3 as stated by the specification: when
a duplicate key occurs, the first occurrence's normalized data appears in
`validRecords` (unconditionally on the other row checks). -/
def claimC3Survival : Prop :=
  ∀ (env : DateEnv) (records : List Row) (res : ParseResult) (i j : ℕ),
    validateAndNormalize env records = .ok res →
    i < j → j < records.length →
    (∀ m, m < i → rowKey (records.getD m []) ≠ rowKey (records.getD i [])) →
    rowKey (records.getD i []) = rowKey (records.getD j []) →
    normalizeRecord env (records.getD i []) ∈ res.validRecords

/-! ## Concrete fixtures used by witnesses and counterexamples -/

/-- A date-library behaviour fixture: one parseable day string (with a
timestamp), two parseable datetime strings — one strictly before the day's
timestamp and one exactly equal to it — and no weekends. -/
def envA : DateEnv :=
  { parseDate := fun s => if s = "2024-03-04" then some 1709510400000 else none
    isWeekend := fun _ => false
    parseDateTime := fun s =>
      if s = "2024-03-03T10:00:00" then some 1709460000000
      else if s = "2024-03-04T00:00:00" then some 1709510400000
      else none }

/-- A fully valid `Present` row. -/
def presentRow : Row :=
  [("employee_id", "E1"), ("employee_name", "Alice"), ("date", "2024-03-04"),
   ("status", "Present"), ("informed_time", ""), ("department", "Eng"),
   ("manager_email", "a@b.c")]

/-- A `Planned Leave` row whose informed time is exactly the leave date's
timestamp under `envA`. -/
def plannedRowEqual : Row :=
  [("employee_id", "E2"), ("employee_name", "Bob"), ("date", "2024-03-04"),
   ("status", "Planned Leave"), ("informed_time", "2024-03-04T00:00:00"),
   ("department", "Eng"), ("manager_email", "a@b.c")]

/-- A `Planned Leave` row whose informed time is strictly before the leave
date under `envA`. -/
def plannedRowBefore : Row :=
  [("employee_id", "E3"), ("employee_name", "Cam"), ("date", "2024-03-04"),
   ("status", "Planned Leave"), ("informed_time", "2024-03-03T10:00:00"),
   ("department", "Eng"), ("manager_email", "a@b.c")]

/-- A row with key `E7_2024-03-04` that fails the email check (and only
that check). -/
def badEmailRow : Row :=
  [("employee_id", "E7"), ("employee_name", "Dana"), ("date", "2024-03-04"),
   ("status", "Present"), ("informed_time", ""), ("department", "Eng"),
   ("manager_email", "not-an-email")]

/-- A fully valid row with the same key `E7_2024-03-04`. -/
def dupKeyRow : Row :=
  [("employee_id", "E7"), ("employee_name", "Dana"), ("date", "2024-03-04"),
   ("status", "Present"), ("informed_time", ""), ("department", "Eng"),
   ("manager_email", "a@b.c")]

/-- A row whose object is missing the `manager_email` column entirely. -/
def missingColRow : Row :=
  [("employee_id", "E1"), ("employee_name", "Alice"), ("date", "2024-03-04"),
   ("status", "Present"), ("informed_time", ""), ("department", "Eng")]

/-- The parse result of the one-row file `[presentRow]` under `envA`: the
row is valid, and the volume check flags employee `E1` for having 1 day of
data. -/
def resVolume : ParseResult :=
  { valid := false
    validRecords := [{ employeeId := "E1"
                       employeeName := "Alice"
                       date := some 1709510400000
                       status := "Present"
                       informedTime := none
                       department := "Eng"
                       managerEmail := "a@b.c" }]
    invalidRecords := 1
    errors := [.employeeError "E1"
      ["Employee must have approximately 63 working days of data (3 months, 5-day week). Found 1 days."]] }

/-- The parse result of the file `[badEmailRow, dupKeyRow]` under `envA`:
the first occurrence of key `E7_2024-03-04` fails the email check, the
second gets the duplicate error, so no record with that key survives. -/
def resDupFile : ParseResult :=
  { valid := false
    validRecords := []
    invalidRecords := 2
    errors := [.rowError 2 ["manager_email must be a valid email address"],
      .rowError 3 ["duplicate employee_id + date combination"]] }

/-- An employee with no attendance records in the window. -/
def emptyEmployee : Employee :=
  { id := "1", companyId := "C1", employeeId := "E1", name := "Alice",
    email := "a@b.c", attendance := [] }

/-- A 69-record attendance sequence engineered so that the composite score
lies in `[69.95, 70)`: 41 absences (absenteeism 100), 4 unplanned out of 27
leaves (leave pattern 400/27), weekly absent rates of 1 and 1/5 in equal
numbers (variance 4/25, consistency 80), and 6 absences in the last 15
records against 4 in the 15 before (trend 2/15, recent trend 75). -/
def ex69 : List Status :=
  List.replicate 25 Status.absent ++
  [Status.absent, Status.present, Status.plannedLeave, Status.plannedLeave, Status.plannedLeave] ++
  [Status.absent, Status.plannedLeave, Status.plannedLeave, Status.plannedLeave, Status.plannedLeave] ++
  List.replicate 5 Status.absent ++
  [Status.absent, Status.plannedLeave, Status.plannedLeave, Status.plannedLeave, Status.plannedLeave] ++
  [Status.absent, Status.plannedLeave, Status.plannedLeave, Status.plannedLeave, Status.plannedLeave] ++
  [Status.absent, Status.plannedLeave, Status.plannedLeave, Status.plannedLeave, Status.plannedLeave] ++
  [Status.absent, Status.plannedLeave, Status.plannedLeave, Status.plannedLeave, Status.plannedLeave] ++
  [Status.absent, Status.unplannedLeave, Status.unplannedLeave, Status.unplannedLeave, Status.unplannedLeave] ++
  List.replicate 4 Status.absent

/-- The employee holding `ex69` as windowed attendance. -/
def exEmployee : Employee :=
  { id := "2", companyId := "C1", employeeId := "E9", name := "Eve",
    email := "e@b.c", attendance := ex69 }

/-! ## Helper lemmas -/

lemma toNat_max_zero (a : ℤ) : (max a 0).toNat = a.toNat := by
  rcases le_total a 0 with h | h
  · simp [max_eq_right h, Int.toNat_of_nonpos h]
  · simp [max_eq_left h]

/-! ## C4: the recent-trend sub-score -/

/-- The recent-trend sub-score as the specification words it: fewer than 20
records give 0; otherwise the trend is the absence rate of the last 15
records minus the absence rate of the records at positions `[-30,-15)`,
mapped through the piecewise thresholds, with any non-positive trend
yielding 0. -/
def specRecentTrendScore (records : List Status) : ℚ :=
  if records.length < 20 then 0
  else
    let recent := records.drop (records.length - 15)
    let previous :=
      (records.drop (records.length - 30)).take (records.length - 15 - (records.length - 30))
    let trend := (countAbsent recent : ℚ) / (recent.length : ℚ) -
      (countAbsent previous : ℚ) / (previous.length : ℚ)
    if 3/20 ≤ trend then 100
    else if 1/10 ≤ trend then 75
    else if 1/20 ≤ trend then 50
    else if 0 < trend then trend * 500
    else 0

/-- Claim C4. A record sequence of fewer than 20 records has recent trend
score 0, and any sequence scores exactly the specification's piecewise
function of the trend between the last 15 records and the records at
positions `[-30,-15)`. -/
theorem claim_C4 (records : List Status) :
    (records.length < 20 → calculateRecentTrendScore records = 0) ∧
    calculateRecentTrendScore records = specRecentTrendScore records := by
  constructor
  · intro h
    simp [calculateRecentTrendScore, h]
  · unfold calculateRecentTrendScore specRecentTrendScore
    have hrec : jsSliceFrom records (-15 : ℤ) = records.drop (records.length - 15) := by
      simp only [jsSliceFrom, jsSlice]
      rw [if_pos (show (-15 : ℤ) < 0 by norm_num),
        if_neg (show ¬((records.length : ℤ) < 0) by omega),
        toNat_max_zero, toNat_max_zero,
        show ((records.length : ℤ) + -15).toNat = records.length - 15 by omega,
        show ((records.length : ℤ)).toNat = records.length by omega]
      exact List.take_of_length_le (by simp)
    have hprev : jsSlice records (-30 : ℤ) (-15 : ℤ) =
        (records.drop (records.length - 30)).take
          (records.length - 15 - (records.length - 30)) := by
      simp only [jsSlice]
      rw [if_pos (show (-30 : ℤ) < 0 by norm_num),
        if_pos (show (-15 : ℤ) < 0 by norm_num),
        toNat_max_zero, toNat_max_zero,
        show ((records.length : ℤ) + -30).toNat = records.length - 30 by omega,
        show ((records.length : ℤ) + -15).toNat = records.length - 15 by omega]
    rw [hrec, hprev]

/-- Witness for C4 at concrete inputs: a 3-record sequence scores 0, and a
21-record worsening sequence agrees with the specification form. -/
theorem claim_C4_witness :
    calculateRecentTrendScore [Status.present, Status.absent, Status.present] = 0 ∧
    calculateRecentTrendScore (List.replicate 18 Status.present ++ List.replicate 3 Status.absent)
      = specRecentTrendScore (List.replicate 18 Status.present ++ List.replicate 3 Status.absent) :=
  ⟨(claim_C4 [Status.present, Status.absent, Status.present]).1 (by decide),
   (claim_C4 (List.replicate 18 Status.present ++ List.replicate 3 Status.absent)).2⟩

/-! ## C5: absenteeism score at zero and at the 5% boundary -/

/-- Claim C5. A non-empty record sequence with no absences has absenteeism
score 0; a non-empty sequence with absent rate exactly 5% scores 40 (the
step branch); and the linear ramp `rate * 800` evaluated at the 5% boundary
also yields 40, so the two branches agree there. -/
theorem claim_C5 :
    (∀ records : List Status, records ≠ [] → countAbsent records = 0 →
      calculateAbsenteeismScore records = 0) ∧
    (∀ records : List Status, records ≠ [] → absentRate records = 1/20 →
      calculateAbsenteeismScore records = 40) ∧
    ((1/20 : ℚ) * 800 = 40) := by
  refine ⟨?_, ?_, by norm_num⟩
  · intro records _ h
    simp only [calculateAbsenteeismScore, absentRate, h, Nat.cast_zero, zero_div]
    norm_num
  · intro records _ h
    simp only [calculateAbsenteeismScore, h]
    norm_num

/-- Witness for C5: an all-present single record scores 0, and 1 absence in
20 records (rate exactly 5%) scores 40. -/
theorem claim_C5_witness :
    calculateAbsenteeismScore [Status.present] = 0 ∧
    calculateAbsenteeismScore (List.replicate 19 Status.present ++ [Status.absent]) = 40 :=
  ⟨claim_C5.1 [Status.present] (by decide) (by decide),
   claim_C5.2.1 (List.replicate 19 Status.present ++ [Status.absent]) (by decide) (by
     rw [absentRate,
       show countAbsent (List.replicate 19 Status.present ++ [Status.absent]) = 1 from by decide,
       show (List.replicate 19 Status.present ++ [Status.absent]).length = 20 from by decide]
     norm_num)⟩

/-! ## C6: all sub-scores and the composite lie in [0,100] -/

lemma absenteeism_bounds (records : List Status) :
    0 ≤ calculateAbsenteeismScore records ∧ calculateAbsenteeismScore records ≤ 100 := by
  have h0 : 0 ≤ absentRate records := div_nonneg (Nat.cast_nonneg _) (Nat.cast_nonneg _)
  simp only [calculateAbsenteeismScore]
  split_ifs with h1 h2 h3 h4
  · norm_num
  · norm_num
  · norm_num
  · norm_num
  · push_neg at h4
    constructor
    · exact mul_nonneg h0 (by norm_num)
    · nlinarith

lemma leavePattern_bounds (records : List Status) :
    0 ≤ calculateLeavePatternScore records ∧ calculateLeavePatternScore records ≤ 100 := by
  simp only [calculateLeavePatternScore]
  have h0 : (0:ℚ) ≤ (records.countP (· = Status.unplannedLeave) : ℚ) /
      (records.countP (fun r => r = Status.plannedLeave ∨ r = Status.unplannedLeave) : ℚ) :=
    div_nonneg (Nat.cast_nonneg _) (Nat.cast_nonneg _)
  split_ifs with h1 h2 h3 h4 h5
  · norm_num
  · norm_num
  · norm_num
  · norm_num
  · norm_num
  · push_neg at h5
    constructor
    · exact mul_nonneg h0 (by norm_num)
    · nlinarith

lemma consistency_bounds (records : List Status) :
    0 ≤ calculateConsistencyScore records ∧ calculateConsistencyScore records ≤ 100 := by
  simp only [calculateConsistencyScore]
  split_ifs with h1
  · norm_num
  · constructor
    · exact le_min (mul_nonneg (Real.sqrt_nonneg _) (by norm_num)) (by norm_num)
    · exact min_le_right _ _

lemma recentTrend_bounds (records : List Status) :
    0 ≤ calculateRecentTrendScore records ∧ calculateRecentTrendScore records ≤ 100 := by
  simp only [calculateRecentTrendScore]
  split_ifs with h1 h2 h3 h4 h5
  · norm_num
  · norm_num
  · norm_num
  · norm_num
  · push_neg at h5
    constructor
    · exact mul_nonneg (le_of_lt h5) (by norm_num)
    · nlinarith
  · norm_num

/-- Claim C6. For a non-empty record sequence each of the four sub-scores lies
in `[0,100]`, and the composite — the weighted combination with weights
0.35, 0.25, 0.25, 0.15 summing to 1 — also lies in `[0,100]`. -/
theorem claim_C6 (records : List Status) (_hne : records ≠ []) :
    (0 ≤ calculateAbsenteeismScore records ∧ calculateAbsenteeismScore records ≤ 100) ∧
    (0 ≤ calculateLeavePatternScore records ∧ calculateLeavePatternScore records ≤ 100) ∧
    (0 ≤ calculateConsistencyScore records ∧ calculateConsistencyScore records ≤ 100) ∧
    (0 ≤ calculateRecentTrendScore records ∧ calculateRecentTrendScore records ≤ 100) ∧
    (0 ≤ compositeScore records ∧ compositeScore records ≤ 100) := by
  have hA := absenteeism_bounds records
  have hL := leavePattern_bounds records
  have hC := consistency_bounds records
  have hT := recentTrend_bounds records
  refine ⟨hA, hL, hC, hT, ?_, ?_⟩
  · have hA0 : (0:ℝ) ≤ (calculateAbsenteeismScore records : ℝ) := by exact_mod_cast hA.1
    have hL0 : (0:ℝ) ≤ (calculateLeavePatternScore records : ℝ) := by exact_mod_cast hL.1
    have hT0 : (0:ℝ) ≤ (calculateRecentTrendScore records : ℝ) := by exact_mod_cast hT.1
    have hC0 := hC.1
    unfold compositeScore
    nlinarith
  · have hA1 : (calculateAbsenteeismScore records : ℝ) ≤ 100 := by exact_mod_cast hA.2
    have hL1 : (calculateLeavePatternScore records : ℝ) ≤ 100 := by exact_mod_cast hL.2
    have hT1 : (calculateRecentTrendScore records : ℝ) ≤ 100 := by exact_mod_cast hT.2
    have hC1 := hC.2
    unfold compositeScore
    nlinarith

/-- Witness for C6 at a concrete non-empty input. -/
theorem claim_C6_witness :
    0 ≤ compositeScore [Status.present, Status.absent] ∧
    compositeScore [Status.present, Status.absent] ≤ 100 :=
  (claim_C6 [Status.present, Status.absent] (by decide)).2.2.2.2

/-! ## C7: the insufficient-data early return -/

/-- Claim C7. When the store lookup succeeds but the employee's windowed
record list is empty, scoring returns the literal insufficient-data
assessment — risk level `Insufficient Data`, score 0, empty factors, no
statistics, and the 3-months-of-data recommendation — rather than an
error, and no sub-score enters the result. -/
theorem claim_C7 (store : List Employee) (employeeId : String) (employee : Employee)
    (hfind : store.find? (fun e => e.id == employeeId) = some employee)
    (hempty : employee.attendance = []) :
    calculateAttritionRisk store employeeId = .ok
      { employeeId := employee.employeeId
        name := employee.name
        email := none
        score := 0
        riskLevel := .insufficientData
        factors := none
        statistics := none
        recommendation := "Need at least 3 months of attendance data" } := by
  unfold calculateAttritionRisk
  rw [hfind]
  exact congrArg Except.ok (by unfold riskAssessmentOf; exact if_pos hempty)

/-- Witness for C7: a store holding one employee with zero attendance
records. -/
theorem claim_C7_witness :
    calculateAttritionRisk [emptyEmployee] "1" = .ok
      { employeeId := "E1", name := "Alice", email := none, score := 0,
        riskLevel := .insufficientData, factors := none, statistics := none,
        recommendation := "Need at least 3 months of attendance data" } :=
  claim_C7 [emptyEmployee] "1" emptyEmployee (by decide) (by decide)

/-! ## C2: the summary counts and the risk-level partition -/

lemma countP_riskLevel_partition (l : List RiskAssessment) :
    l.countP (fun r => r.riskLevel = RiskLevel.high) +
    l.countP (fun r => r.riskLevel = RiskLevel.moderate) +
    l.countP (fun r => r.riskLevel = RiskLevel.low) +
    l.countP (fun r => r.riskLevel = RiskLevel.insufficientData) = l.length := by
  induction l with
  | nil => simp
  | cons a l ih =>
    simp only [List.countP_cons, List.length_cons]
    rcases ha : a.riskLevel <;> simp [ha] <;> omega

/-- Claim C2, corrected. In every generated report the four risk levels
partition the employee list: `high + moderate + low` plus the number of
`Insufficient Data` assessments equals the length of the report's employee
list (the original claim omits the `Insufficient Data` class). -/
theorem claim_C2_amended (store : List Employee) (companyId : String) (months : ℕ) :
    (generateAttritionReport store companyId months).summary.high +
    (generateAttritionReport store companyId months).summary.moderate +
    (generateAttritionReport store companyId months).summary.low +
    (generateAttritionReport store companyId months).employees.countP
      (fun r => r.riskLevel = RiskLevel.insufficientData) =
    (generateAttritionReport store companyId months).employees.length := by
  unfold generateAttritionReport
  exact countP_riskLevel_partition _

/-- Claim C2 counterexample. For a company whose only employee has no
attendance records, the report's employee list has one entry (an
`Insufficient Data` assessment) but `high + moderate + low = 0`, so the
three summary counts do not partition the employee list. -/
theorem claim_C2_counterexample : ¬ claimC2Statement := by
  intro h
  have h1 := h [emptyEmployee] "C1" 3
  have h2 := claim_C2_amended [emptyEmployee] "C1" 3
  -- the single assessment is `Insufficient Data`, so the insufficient count is 1
  have h3 : (generateAttritionReport [emptyEmployee] "C1" 3).employees.countP
      (fun r => r.riskLevel = RiskLevel.insufficientData) =
      (generateAttritionReport [emptyEmployee] "C1" 3).employees.length := by
    unfold generateAttritionReport
    rw [List.Perm.countP_eq _ (List.mergeSort_perm _ _),
      (List.mergeSort_perm _ _).length_eq]
    simp only [calculateAttritionRisk, riskAssessmentOf]
    decide
  have h4 : (generateAttritionReport [emptyEmployee] "C1" 3).employees.length = 1 := by
    unfold generateAttritionReport
    rw [(List.mergeSort_perm _ _).length_eq]
    simp only [calculateAttritionRisk, riskAssessmentOf]
    decide
  omega

/-! ## C10: rounding of the reported score vs the unrounded classification -/

lemma ex69_absenteeism : calculateAbsenteeismScore ex69 = 100 := by
  simp only [calculateAbsenteeismScore, absentRate]
  rw [show countAbsent ex69 = 41 from by decide, show ex69.length = 69 from by decide]
  norm_num

lemma ex69_leave : calculateLeavePatternScore ex69 = 400/27 := by
  simp only [calculateLeavePatternScore]
  rw [show ex69.countP (fun r => r = Status.plannedLeave ∨ r = Status.unplannedLeave) = 27
      from by decide,
    show ex69.countP (· = Status.unplannedLeave) = 4 from by decide]
  norm_num

lemma ex69_weeklyRates : weeklyRates ex69 =
    [1, 1, 1, 1, 1, 1/5, 1/5, 1, 1/5, 1/5, 1/5, 1/5, 1/5, 1] := by
  simp +decide [weeklyRates, weeklyRatesLoop, countAbsent]

lemma ex69_variance :
    listVariance [1, 1, 1, 1, 1, 1/5, 1/5, 1, 1/5, 1/5, 1/5, 1/5, 1/5, 1] = 4/25 := by
  norm_num [listVariance, listMean]

lemma ex69_consistency : calculateConsistencyScore ex69 = 80 := by
  simp only [calculateConsistencyScore, ex69_weeklyRates]
  rw [if_neg (by norm_num), ex69_variance]
  rw [show (((4:ℚ)/25 : ℚ) : ℝ) = (2/5)^2 by push_cast; norm_num,
    Real.sqrt_sq (by norm_num)]
  norm_num

lemma ex69_trend : calculateRecentTrendScore ex69 = 75 := by
  simp only [calculateRecentTrendScore]
  rw [if_neg (show ¬ (ex69.length < 20) from by decide),
    show countAbsent (jsSliceFrom ex69 (-15 : ℤ)) = 6 from by decide,
    show (jsSliceFrom ex69 (-15 : ℤ)).length = 15 from by decide,
    show countAbsent (jsSlice ex69 (-30 : ℤ) (-15 : ℤ)) = 4 from by decide,
    show (jsSlice ex69 (-30 : ℤ) (-15 : ℤ)).length = 15 from by decide]
  norm_num

lemma ex69_composite : compositeScore ex69 = 7555/108 := by
  unfold compositeScore
  rw [ex69_absenteeism, ex69_leave, ex69_consistency, ex69_trend]
  push_cast
  norm_num

/-- Claim C10. In every assessment of a non-empty record sequence the risk
level is classified from the unrounded composite while the reported score
is the composite rounded to one decimal; and for the concrete sequence
`ex69`, whose composite `7555/108 ≈ 69.954` lies in `[69.95, 70)`, the
assessment reports score `70.0` together with risk level `Moderate`. -/
theorem claim_C10 :
    (∀ e : Employee, e.attendance ≠ [] →
      (riskAssessmentOf e).riskLevel = determineRiskLevel (compositeScore e.attendance) ∧
      (riskAssessmentOf e).score = roundTenthR (compositeScore e.attendance)) ∧
    (69.95 ≤ compositeScore ex69 ∧ compositeScore ex69 < 70 ∧
      (riskAssessmentOf exEmployee).score = 70 ∧
      (riskAssessmentOf exEmployee).riskLevel = RiskLevel.moderate) := by
  have hproj : ∀ e : Employee, e.attendance ≠ [] →
      (riskAssessmentOf e).riskLevel = determineRiskLevel (compositeScore e.attendance) ∧
      (riskAssessmentOf e).score = roundTenthR (compositeScore e.attendance) := by
    intro e he
    simp only [riskAssessmentOf, if_neg he]
    exact ⟨trivial, trivial⟩
  refine ⟨hproj, ?_, ?_, ?_, ?_⟩
  · rw [ex69_composite]; norm_num
  · rw [ex69_composite]; norm_num
  · rw [(hproj exEmployee (by decide)).2]
    show roundTenthR (compositeScore ex69) = 70
    rw [ex69_composite]
    have hf : ⌊(7555:ℝ)/108 * 10 + 1/2⌋ = (700 : ℤ) := by
      rw [Int.floor_eq_iff]
      constructor <;> norm_num
    unfold roundTenthR jsRound
    rw [hf]
    norm_num
  · rw [(hproj exEmployee (by decide)).1]
    show determineRiskLevel (compositeScore ex69) = RiskLevel.moderate
    rw [ex69_composite]
    unfold determineRiskLevel
    rw [if_neg (by norm_num), if_pos (by norm_num)]

/-- Witness for C10's quantified part at the concrete employee. -/
theorem claim_C10_witness :
    (riskAssessmentOf exEmployee).riskLevel =
      determineRiskLevel (compositeScore exEmployee.attendance) ∧
    (riskAssessmentOf exEmployee).score = roundTenthR (compositeScore exEmployee.attendance) :=
  claim_C10.1 exEmployee (by decide)

/-! ## C9: the fatal missing-columns check -/

/-- Claim C9. For a non-empty file whose first record's keys are not a
superset of the required columns, `validateAndNormalize` fails fatally with
the missing-columns message; no result object (and hence no valid record
and no per-row error) is produced. -/
theorem claim_C9 (env : DateEnv) (first : Row) (rest : List Row)
    (h : ¬ ∀ col ∈ REQUIRED_COLUMNS, col ∈ rowKeys first) :
    validateAndNormalize env (first :: rest) =
      .error ("Missing required columns: " ++ String.intercalate ", "
        (REQUIRED_COLUMNS.filter (fun col => !(rowKeys first).contains col))) ∧
    ∀ res : ParseResult, validateAndNormalize env (first :: rest) ≠ .ok res := by
  have hm : REQUIRED_COLUMNS.filter (fun col => !(rowKeys first).contains col) ≠ [] := by
    push_neg at h
    obtain ⟨col, hcol, hnot⟩ := h
    intro hemp
    have hmem : col ∈ REQUIRED_COLUMNS.filter (fun col => !(rowKeys first).contains col) := by
      rw [List.mem_filter]
      exact ⟨hcol, by simp [hnot]⟩
    rw [hemp] at hmem
    simp at hmem
  have herr : validateAndNormalize env (first :: rest) =
      .error ("Missing required columns: " ++ String.intercalate ", "
        (REQUIRED_COLUMNS.filter (fun col => !(rowKeys first).contains col))) := by
    simp only [validateAndNormalize]
    rw [if_pos hm]
  exact ⟨herr, fun res hok => by rw [herr] at hok; exact absurd hok (by simp)⟩

/-- Witness for C9: a one-row file whose header is missing
`manager_email`. -/
theorem claim_C9_witness :
    validateAndNormalize envA [missingColRow] =
      .error ("Missing required columns: " ++ String.intercalate ", "
        (REQUIRED_COLUMNS.filter (fun col => !(rowKeys missingColRow).contains col))) ∧
    ∀ res : ParseResult, validateAndNormalize envA [missingColRow] ≠ .ok res :=
  claim_C9 envA missingColRow [] (by decide)

/-! ## C8: the volume check is advisory -/

/-- Successful parses are exactly the row-phase output with the volume
errors appended. -/
lemma validateAndNormalize_ok (env : DateEnv) (records : List Row) (res : ParseResult)
    (h : validateAndNormalize env records = .ok res) :
    res = { valid := ((processRows env 0 [] records).1 ++
              volumeErrors (processRows env 0 [] records).2).isEmpty
            validRecords := (processRows env 0 [] records).2
            invalidRecords := ((processRows env 0 [] records).1 ++
              volumeErrors (processRows env 0 [] records).2).length
            errors := (processRows env 0 [] records).1 ++
              volumeErrors (processRows env 0 [] records).2 } := by
  cases records with
  | nil => simp [validateAndNormalize] at h
  | cons first rest =>
    simp only [validateAndNormalize] at h
    by_cases hm : REQUIRED_COLUMNS.filter (fun col => !(rowKeys first).contains col) ≠ []
    · rw [if_pos hm] at h
      exact absurd h (by simp)
    · rw [if_neg hm] at h
      simp only [Except.ok.injEq] at h
      exact h.symm

lemma processRows_fst_rowError (env : DateEnv) :
    ∀ (rows : List Row) (i : ℕ) (seen : List String) (e : ValidationError),
      e ∈ (processRows env i seen rows).1 → ∃ n msgs, e = .rowError n msgs := by
  intro rows
  induction rows with
  | nil => intro i seen e he; simp [processRows] at he
  | cons record rest ih =>
    intro i seen e he
    simp only [processRows] at he
    by_cases hr : rowErrorsOf env record seen = []
    · rw [if_pos hr] at he
      exact ih _ _ e he
    · rw [if_neg hr] at he
      rcases List.mem_cons.1 he with h1 | h1
      · exact ⟨i + 2, rowErrorsOf env record seen, h1⟩
      · exact ih _ _ e h1

lemma mem_employeeIdsInOrder (valids : List NormRecord) (emp : String) :
    emp ∈ employeeIdsInOrder valids ↔ emp ∈ valids.map NormRecord.employeeId := by
  have key : ∀ (l : List NormRecord) (acc : List String),
      emp ∈ l.foldl (fun acc r =>
        if acc.contains r.employeeId then acc else acc ++ [r.employeeId]) acc ↔
      emp ∈ acc ∨ emp ∈ l.map NormRecord.employeeId := by
    intro l
    induction l with
    | nil => intro acc; simp
    | cons r rest ih =>
      intro acc
      simp only [List.foldl_cons, List.map_cons, List.mem_cons]
      rw [ih]
      by_cases hc : acc.contains r.employeeId
      · rw [if_pos hc]
        have hmem : r.employeeId ∈ acc := by simpa using hc
        constructor
        · rintro (h | h)
          · exact Or.inl h
          · exact Or.inr (Or.inr h)
        · rintro (h | h | h)
          · exact Or.inl h
          · exact Or.inl (h ▸ hmem)
          · exact Or.inr h
      · rw [if_neg hc]
        simp only [List.mem_append, List.mem_singleton]
        tauto
  rw [employeeIdsInOrder, key]
  simp

lemma mem_volumeErrors (valids : List NormRecord) (emp : String) :
    (∃ msgs, ValidationError.employeeError emp msgs ∈ volumeErrors valids) ↔
      (emp ∈ valids.map NormRecord.employeeId ∧
        ((valids.filter (fun r => r.employeeId == emp)).length < 55 ∨
          70 < (valids.filter (fun r => r.employeeId == emp)).length)) := by
  constructor
  · rintro ⟨msgs, hmem⟩
    obtain ⟨a, ha, hfa⟩ := List.mem_filterMap.1 hmem
    by_cases hcond : (valids.filter (fun r => r.employeeId == a)).length < 55 ∨
        70 < (valids.filter (fun r => r.employeeId == a)).length
    · rw [if_pos hcond] at hfa
      simp only [Option.some.injEq, ValidationError.employeeError.injEq] at hfa
      obtain ⟨heq, -⟩ := hfa
      subst heq
      exact ⟨(mem_employeeIdsInOrder valids _).1 ha, hcond⟩
    · rw [if_neg hcond] at hfa
      exact absurd hfa (by simp)
  · rintro ⟨hmem, hcond⟩
    refine ⟨["Employee must have approximately 63 working days of data (3 months, 5-day week). Found "
      ++ toString (valids.filter (fun r => r.employeeId == emp)).length ++ " days."], ?_⟩
    apply List.mem_filterMap.2
    refine ⟨emp, (mem_employeeIdsInOrder valids emp).2 hmem, ?_⟩
    rw [if_pos hcond]

/-- Claim C8. Whenever the pipeline returns a result object, its
`validRecords` is exactly the per-row phase's valid output — the volume
check removes nothing — and its error list is the row errors followed by
the appended volume errors, which contain an employee-scoped entry exactly
for the employees of `validRecords` whose valid row count lies outside
`[55, 70]`. -/
theorem claim_C8 (env : DateEnv) (records : List Row) (res : ParseResult)
    (h : validateAndNormalize env records = .ok res) :
    res.validRecords = (processRows env 0 [] records).2 ∧
    res.errors = (processRows env 0 [] records).1 ++
      volumeErrors (processRows env 0 [] records).2 ∧
    (∀ emp : String,
      (∃ msgs, ValidationError.employeeError emp msgs ∈ res.errors) ↔
        (emp ∈ (processRows env 0 [] records).2.map NormRecord.employeeId ∧
          (((processRows env 0 [] records).2.filter
              (fun r => r.employeeId == emp)).length < 55 ∨
            70 < ((processRows env 0 [] records).2.filter
              (fun r => r.employeeId == emp)).length))) := by
  have hres := validateAndNormalize_ok env records res h
  subst hres
  refine ⟨rfl, rfl, ?_⟩
  intro emp
  constructor
  · rintro ⟨msgs, hmem⟩
    rcases List.mem_append.1 hmem with hrow | hvol
    · obtain ⟨n, msgs', heq⟩ := processRows_fst_rowError env records 0 [] _ hrow
      exact absurd heq (by simp)
    · exact (mem_volumeErrors _ emp).1 ⟨msgs, hvol⟩
  · intro hcond
    obtain ⟨msgs, hmem⟩ := (mem_volumeErrors _ emp).2 hcond
    exact ⟨msgs, List.mem_append_right _ hmem⟩

/-- Witness for C8: a one-row file whose single employee has far fewer than
55 valid rows; the volume error is appended while the record stays in
`validRecords`. -/
theorem claim_C8_witness :
    resVolume.validRecords = (processRows envA 0 [] [presentRow]).2 ∧
    resVolume.errors = (processRows envA 0 [] [presentRow]).1 ++
      volumeErrors (processRows envA 0 [] [presentRow]).2 ∧
    (∀ emp : String,
      (∃ msgs, ValidationError.employeeError emp msgs ∈ resVolume.errors) ↔
        (emp ∈ (processRows envA 0 [] [presentRow]).2.map NormRecord.employeeId ∧
          (((processRows envA 0 [] [presentRow]).2.filter
              (fun r => r.employeeId == emp)).length < 55 ∨
            70 < ((processRows envA 0 [] [presentRow]).2.filter
              (fun r => r.employeeId == emp)).length))) :=
  claim_C8 envA [presentRow] resVolume (by rfl)

/-! ## C3: duplicate detection across the file -/

lemma contains_eq_decide_mem (l : List String) (a : String) :
    l.contains a = decide (a ∈ l) := List.elem_eq_mem a l

/-- The row validator reads `seenKeys` only through membership of the row's
own key, so membership-equivalent states yield identical error lists. -/
lemma rowErrorsOf_seen_congr (env : DateEnv) (record : Row) {seen₁ seen₂ : List String}
    (h : rowKey record ∈ seen₁ ↔ rowKey record ∈ seen₂) :
    rowErrorsOf env record seen₁ = rowErrorsOf env record seen₂ := by
  unfold rowErrorsOf errsDuplicate
  rw [contains_eq_decide_mem, contains_eq_decide_mem, decide_eq_decide.2 h]

lemma seen_insert_mem (seen : List String) (key : String) (X : List String) (k : String) :
    (k ∈ (if seen.contains key then seen else seen ++ [key]) ++ X) ↔
      k ∈ seen ++ (key :: X) := by
  by_cases hc : seen.contains key
  · rw [if_pos hc]
    have hmem : key ∈ seen := by simpa [contains_eq_decide_mem] using hc
    constructor
    · intro h
      rcases List.mem_append.1 h with h | h
      · exact List.mem_append_left _ h
      · exact List.mem_append_right _ (List.mem_cons_of_mem _ h)
    · intro h
      rcases List.mem_append.1 h with h | h
      · exact List.mem_append_left _ h
      · rcases List.mem_cons.1 h with h | h
        · exact List.mem_append_left _ (h ▸ hmem)
        · exact List.mem_append_right _ h
  · rw [if_neg hc, List.append_assoc, List.singleton_append]

/-- Closed form of the valid-records component of the row loop: row `j`
survives iff its canonical error list (errors against the keys of the rows
before it) is empty. -/
lemma processRows_snd (env : DateEnv) :
    ∀ (rows : List Row) (seen : List String) (i : ℕ),
      (processRows env i seen rows).2 =
        (List.range rows.length).filterMap (fun j =>
          if rowErrorsOf env (rows.getD j []) (seen ++ (rows.take j).map rowKey) = []
          then some (normalizeRecord env (rows.getD j [])) else none) := by
  intro rows
  induction rows with
  | nil => intro seen i; simp [processRows]
  | cons record rest ih =>
    intro seen i
    have hcongr : ∀ (j : ℕ),
        rowErrorsOf env (rest.getD j [])
          ((if seen.contains (rowKey record) then seen else seen ++ [rowKey record]) ++
            (rest.take j).map rowKey) =
        rowErrorsOf env (rest.getD j []) (seen ++ (rowKey record :: (rest.take j).map rowKey)) :=
      fun j => rowErrorsOf_seen_congr env _ (seen_insert_mem seen (rowKey record) _ _)
    simp only [processRows]
    rw [ih _ (i + 1)]
    rw [List.length_cons, List.range_succ_eq_map, List.filterMap_cons]
    simp only [List.filterMap_map, Function.comp_def, List.getD_cons_zero, List.getD_cons_succ,
      List.take_succ_cons, List.take_zero, List.map_cons, List.map_nil, List.append_nil]
    rw [List.filterMap_congr (fun j _ => by rw [hcongr j])]
    by_cases hr : rowErrorsOf env record seen = []
    · rw [if_pos hr, if_pos hr]
    · rw [if_neg hr, if_neg hr]

/-- Closed form of the error component of the row loop. -/
lemma processRows_fst (env : DateEnv) :
    ∀ (rows : List Row) (seen : List String) (i : ℕ),
      (processRows env i seen rows).1 =
        (List.range rows.length).filterMap (fun j =>
          if rowErrorsOf env (rows.getD j []) (seen ++ (rows.take j).map rowKey) = []
          then none
          else some (.rowError (i + j + 2)
            (rowErrorsOf env (rows.getD j []) (seen ++ (rows.take j).map rowKey)))) := by
  intro rows
  induction rows with
  | nil => intro seen i; simp [processRows]
  | cons record rest ih =>
    intro seen i
    have hcongr : ∀ (j : ℕ),
        rowErrorsOf env (rest.getD j [])
          ((if seen.contains (rowKey record) then seen else seen ++ [rowKey record]) ++
            (rest.take j).map rowKey) =
        rowErrorsOf env (rest.getD j []) (seen ++ (rowKey record :: (rest.take j).map rowKey)) :=
      fun j => rowErrorsOf_seen_congr env _ (seen_insert_mem seen (rowKey record) _ _)
    simp only [processRows]
    rw [ih _ (i + 1)]
    rw [List.length_cons, List.range_succ_eq_map, List.filterMap_cons]
    simp only [List.filterMap_map, Function.comp_def, List.getD_cons_zero, List.getD_cons_succ,
      List.take_succ_cons, List.take_zero, List.map_cons, List.map_nil, List.append_nil,
      Nat.succ_eq_add_one]
    by_cases hr : rowErrorsOf env record seen = []
    · rw [if_pos hr, if_pos hr]
      exact List.filterMap_congr (fun j _ => by
        rw [hcongr j, show i + 1 + j + 2 = i + (j + 1) + 2 from by omega])
    · rw [if_neg hr, if_neg hr]
      exact congrArg (List.cons _) (List.filterMap_congr (fun j _ => by
        rw [hcongr j, show i + 1 + j + 2 = i + (j + 1) + 2 from by omega]))

/-! ### The possible messages of each validation segment -/

lemma errsEmployeeId_subset (record : Row) :
    ∀ m ∈ errsEmployeeId record,
      m ∈ ["employee_id is required", "employee_id must be max 20 characters"] := by
  intro m hm
  simp only [errsEmployeeId] at hm
  split_ifs at hm <;> simp_all

lemma errsEmployeeName_subset (record : Row) :
    ∀ m ∈ errsEmployeeName record,
      m ∈ ["employee_name is required", "employee_name must be max 100 characters"] := by
  intro m hm
  simp only [errsEmployeeName] at hm
  split_ifs at hm <;> simp_all

lemma errsDate_subset (env : DateEnv) (record : Row) :
    ∀ m ∈ errsDate env record,
      m ∈ ["date must be in YYYY-MM-DD format", "date cannot be a weekend (Saturday/Sunday)"] := by
  intro m hm
  simp only [errsDate] at hm
  split at hm
  · simp_all
  · split_ifs at hm <;> simp_all

lemma errsStatus_subset (record : Row) :
    ∀ m ∈ errsStatus record,
      m ∈ ["status must be one of: Present, Planned Leave, Unplanned Leave, Absent"] := by
  intro m hm
  simp only [errsStatus] at hm
  split_ifs at hm <;> simp_all

lemma errsInformedTime_subset (env : DateEnv) (record : Row) :
    ∀ m ∈ errsInformedTime env record, m ∈ informedTimeMsgs := by
  intro m hm
  rcases hdt : env.parseDateTime (rowGet record "informed_time") with _ | informed <;>
    rcases hdd : env.parseDate (rowGet record "date") with _ | d <;>
    simp only [errsInformedTime, hdt, hdd] at hm <;>
    split_ifs at hm <;> simp_all [informedTimeMsgs]

lemma errsDepartment_subset (record : Row) :
    ∀ m ∈ errsDepartment record,
      m ∈ ["department is required", "department must be max 50 characters"] := by
  intro m hm
  simp only [errsDepartment] at hm
  split_ifs at hm <;> simp_all

lemma errsManagerEmail_subset (record : Row) :
    ∀ m ∈ errsManagerEmail record,
      m ∈ ["manager_email must be a valid email address"] := by
  intro m hm
  simp only [errsManagerEmail] at hm
  split_ifs at hm <;> simp_all

lemma errsDuplicate_subset (record : Row) (seen : List String) :
    ∀ m ∈ errsDuplicate record seen, m ∈ ["duplicate employee_id + date combination"] := by
  intro m hm
  simp only [errsDuplicate] at hm
  split_ifs at hm <;> simp_all

/-- A row's error list contains the duplicate message exactly when the
row's key was already seen. -/
lemma dupMsg_mem_rowErrorsOf (env : DateEnv) (record : Row) (seen : List String) :
    "duplicate employee_id + date combination" ∈ rowErrorsOf env record seen ↔
      rowKey record ∈ seen := by
  unfold rowErrorsOf
  simp only [List.mem_append, or_assoc]
  constructor
  · rintro (h | h | h | h | h | h | h | h)
    · exact absurd (errsEmployeeId_subset record _ h) (by decide)
    · exact absurd (errsEmployeeName_subset record _ h) (by decide)
    · exact absurd (errsDate_subset env record _ h) (by decide)
    · exact absurd (errsStatus_subset record _ h) (by decide)
    · exact absurd (errsInformedTime_subset env record _ h) (by decide)
    · exact absurd (errsDepartment_subset record _ h) (by decide)
    · exact absurd (errsManagerEmail_subset record _ h) (by decide)
    · unfold errsDuplicate at h
      split_ifs at h with hc
      · simpa [contains_eq_decide_mem] using hc
      · simp at h
  · intro h
    refine Or.inr (Or.inr (Or.inr (Or.inr (Or.inr (Or.inr (Or.inr ?_))))))
    unfold errsDuplicate
    rw [if_pos (show (seen.contains (rowKey record)) = true by
      simp [contains_eq_decide_mem, h])]
    simp

/-- An `informed_time` message sits in a row's error list exactly when the
`informed_time` segment produced it. -/
lemma informed_mem_rowErrorsOf (env : DateEnv) (record : Row) (seen : List String)
    (m : String) (hm : m ∈ informedTimeMsgs) :
    m ∈ rowErrorsOf env record seen ↔ m ∈ errsInformedTime env record := by
  unfold rowErrorsOf
  simp only [List.mem_append, or_assoc]
  constructor
  · rintro (h | h | h | h | h | h | h | h)
    · exact absurd (errsEmployeeId_subset record _ h)
        ((by decide : ∀ x ∈ informedTimeMsgs,
          x ∉ ["employee_id is required", "employee_id must be max 20 characters"]) m hm)
    · exact absurd (errsEmployeeName_subset record _ h)
        ((by decide : ∀ x ∈ informedTimeMsgs,
          x ∉ ["employee_name is required", "employee_name must be max 100 characters"]) m hm)
    · exact absurd (errsDate_subset env record _ h)
        ((by decide : ∀ x ∈ informedTimeMsgs,
          x ∉ ["date must be in YYYY-MM-DD format",
               "date cannot be a weekend (Saturday/Sunday)"]) m hm)
    · exact absurd (errsStatus_subset record _ h)
        ((by decide : ∀ x ∈ informedTimeMsgs,
          x ∉ ["status must be one of: Present, Planned Leave, Unplanned Leave, Absent"]) m hm)
    · exact h
    · exact absurd (errsDepartment_subset record _ h)
        ((by decide : ∀ x ∈ informedTimeMsgs,
          x ∉ ["department is required", "department must be max 50 characters"]) m hm)
    · exact absurd (errsManagerEmail_subset record _ h)
        ((by decide : ∀ x ∈ informedTimeMsgs,
          x ∉ ["manager_email must be a valid email address"]) m hm)
    · exact absurd (errsDuplicate_subset record seen _ h)
        ((by decide : ∀ x ∈ informedTimeMsgs,
          x ∉ ["duplicate employee_id + date combination"]) m hm)
  · intro h
    exact Or.inr (Or.inr (Or.inr (Or.inr (Or.inl h))))

/-! ## C1: the informed-time cross-field rules -/

/-- With a parseable leave date and informed time, the `informed_time`
segment of a `Planned Leave` row is exactly the strictly-after check. -/
lemma errsInformedTime_planned (env : DateEnv) (record : Row) (d t : ℤ)
    (hs : rowGet record "status" = "Planned Leave")
    (hd : env.parseDate (rowGet record "date") = some d)
    (hne : rowGet record "informed_time" ≠ "")
    (ht : env.parseDateTime (rowGet record "informed_time") = some t) :
    errsInformedTime env record =
      if d < t then ["informed_time must be before the leave date for planned leave"]
      else [] := by
  simp only [errsInformedTime, hs, hd, ht]
  simp [hne]

/-- With a parseable leave date and informed time, the `informed_time`
segment of an `Unplanned Leave` row is exactly the 24-hour check. -/
lemma errsInformedTime_unplanned (env : DateEnv) (record : Row) (d t : ℤ)
    (hs : rowGet record "status" = "Unplanned Leave")
    (hd : env.parseDate (rowGet record "date") = some d)
    (hne : rowGet record "informed_time" ≠ "")
    (ht : env.parseDateTime (rowGet record "informed_time") = some t) :
    errsInformedTime env record =
      if 24 < ((|d - t| : ℤ) : ℚ) / (1000 * 60 * 60) then
        ["informed_time must be within 24 hours of date for unplanned leave"]
      else [] := by
  simp only [errsInformedTime, hs, hd, ht]
  simp [hne]

/-- Claim C1, corrected. In per-row validation with a parseable informed
time and leave date: a `Planned Leave` row receives an informed-time error
iff the informed timestamp is **strictly after** the leave date (the code
accepts equality, which the claim's "not strictly before" would reject),
and an `Unplanned Leave` row receives one iff the absolute difference
exceeds 24 hours, exactly as claimed. -/
theorem claim_C1_amended (env : DateEnv) (record : Row) (seen : List String) (d t : ℤ)
    (hd : env.parseDate (rowGet record "date") = some d)
    (hne : rowGet record "informed_time" ≠ "")
    (ht : env.parseDateTime (rowGet record "informed_time") = some t) :
    (rowGet record "status" = "Planned Leave" →
      (hasInformedTimeError (rowErrorsOf env record seen) ↔ d < t)) ∧
    (rowGet record "status" = "Unplanned Leave" →
      (hasInformedTimeError (rowErrorsOf env record seen) ↔
        24 < ((|d - t| : ℤ) : ℚ) / (1000 * 60 * 60))) := by
  constructor
  · intro hs
    unfold hasInformedTimeError
    constructor
    · rintro ⟨m, hm, hmem⟩
      rw [informed_mem_rowErrorsOf env record seen m hm,
        errsInformedTime_planned env record d t hs hd hne ht] at hmem
      by_cases hdt : d < t
      · exact hdt
      · rw [if_neg hdt] at hmem
        simp at hmem
    · intro hdt
      refine ⟨"informed_time must be before the leave date for planned leave",
        by simp [informedTimeMsgs], ?_⟩
      rw [informed_mem_rowErrorsOf env record seen _ (by simp [informedTimeMsgs]),
        errsInformedTime_planned env record d t hs hd hne ht, if_pos hdt]
      simp
  · intro hs
    unfold hasInformedTimeError
    constructor
    · rintro ⟨m, hm, hmem⟩
      rw [informed_mem_rowErrorsOf env record seen m hm,
        errsInformedTime_unplanned env record d t hs hd hne ht] at hmem
      by_cases hdt : 24 < ((|d - t| : ℤ) : ℚ) / (1000 * 60 * 60)
      · exact hdt
      · rw [if_neg hdt] at hmem
        simp at hmem
    · intro hdt
      refine ⟨"informed_time must be within 24 hours of date for unplanned leave",
        by simp [informedTimeMsgs], ?_⟩
      rw [informed_mem_rowErrorsOf env record seen _ (by simp [informedTimeMsgs]),
        errsInformedTime_unplanned env record d t hs hd hne ht, if_pos hdt]
      simp

/-- Witness for C1 (corrected) at a concrete planned-leave row whose
informed time is strictly before the leave date. -/
theorem claim_C1_witness :
    (rowGet plannedRowBefore "status" = "Planned Leave" →
      (hasInformedTimeError (rowErrorsOf envA plannedRowBefore []) ↔
        (1709510400000 : ℤ) < 1709460000000)) ∧
    (rowGet plannedRowBefore "status" = "Unplanned Leave" →
      (hasInformedTimeError (rowErrorsOf envA plannedRowBefore []) ↔
        24 < ((|(1709510400000 : ℤ) - 1709460000000| : ℤ) : ℚ) / (1000 * 60 * 60))) :=
  claim_C1_amended envA plannedRowBefore [] 1709510400000 1709460000000
    (by decide) (by decide) (by decide)

/-- Claim C1 counterexample. At a `Planned Leave` row whose informed
timestamp equals the leave date's timestamp, the code produces no
informed-time error although the timestamp is not strictly before the
leave date, refuting the claim as stated. -/
theorem claim_C1_counterexample : ¬ claimC1Statement := by
  intro h
  obtain ⟨hP, -⟩ := h envA plannedRowEqual [] 1709510400000 1709510400000
    (by decide) (by decide) (by decide)
  obtain ⟨m, -, hmem⟩ := (hP (by decide)).2 (by omega)
  rw [show rowErrorsOf envA plannedRowEqual [] = [] from by decide] at hmem
  simp at hmem

lemma getD_mem_take (records : List Row) (i j : ℕ) (hij : i < j) (hi : i < records.length) :
    records.getD i [] ∈ records.take j := by
  rw [List.getD_eq_getElem?_getD, List.getElem?_eq_getElem hi, Option.getD_some]
  have h2 : (records.take j)[i]? = records[i]? := List.getElem?_take_of_lt hij
  have h3 : (records.take j)[i]? = some records[i] := by
    rw [h2, List.getElem?_eq_getElem hi]
  exact List.getElem?_mem h3

/-- Claim C3, corrected. Duplicate handling across a successfully parsed
file: a row carries the duplicate message exactly when its key already
occurred among the earlier rows (so every occurrence after the first is
rejected and first occurrences never are); `validRecords` consists of
exactly the normalizations of the rows whose canonical error list is
empty; every erroneous row contributes its `RowValidationError`; and any
later occurrence of a repeated key always has a non-empty error list, so at
most one row per key — the first, and only if it passes the other checks —
reaches `validRecords`. -/
theorem claim_C3_amended (env : DateEnv) (records : List Row) (res : ParseResult)
    (h : validateAndNormalize env records = .ok res) :
    (∀ j, "duplicate employee_id + date combination" ∈ rowErrsAt env records j ↔
        rowKey (records.getD j []) ∈ (records.take j).map rowKey) ∧
    res.validRecords = (List.range records.length).filterMap (fun j =>
      if rowErrsAt env records j = [] then some (normalizeRecord env (records.getD j []))
      else none) ∧
    (∀ j, j < records.length → rowErrsAt env records j ≠ [] →
      ValidationError.rowError (j + 2) (rowErrsAt env records j) ∈ res.errors) ∧
    (∀ j, j < records.length → rowErrsAt env records j = [] →
      normalizeRecord env (records.getD j []) ∈ res.validRecords) ∧
    (∀ i j, i < j → j < records.length →
      rowKey (records.getD i []) = rowKey (records.getD j []) →
      rowErrsAt env records j ≠ []) := by
  have hres := validateAndNormalize_ok env records res h
  subst hres
  have hdup : ∀ j, "duplicate employee_id + date combination" ∈ rowErrsAt env records j ↔
      rowKey (records.getD j []) ∈ (records.take j).map rowKey :=
    fun j => dupMsg_mem_rowErrorsOf env _ _
  have hvalid : (processRows env 0 [] records).2 =
      (List.range records.length).filterMap (fun j =>
        if rowErrsAt env records j = [] then some (normalizeRecord env (records.getD j []))
        else none) := by
    rw [processRows_snd env records [] 0]
    exact List.filterMap_congr (fun j _ => by simp only [rowErrsAt, List.nil_append])
  refine ⟨hdup, hvalid, ?_, ?_, ?_⟩
  · intro j hj hne
    apply List.mem_append_left
    rw [processRows_fst env records [] 0]
    apply List.mem_filterMap.2
    refine ⟨j, List.mem_range.2 hj, ?_⟩
    simp only [List.nil_append, Nat.zero_add]
    simp only [rowErrsAt] at hne
    rw [if_neg hne]
    rfl
  · intro j hj he
    show _ ∈ (processRows env 0 [] records).2
    rw [hvalid]
    exact List.mem_filterMap.2 ⟨j, List.mem_range.2 hj, by rw [if_pos he]⟩
  · intro i j hij hj hkey hnil
    have hmem : rowKey (records.getD j []) ∈ (records.take j).map rowKey := by
      rw [← hkey]
      exact List.mem_map_of_mem rowKey (getD_mem_take records i j hij (lt_trans hij hj))
    have hd := (hdup j).2 hmem
    rw [hnil] at hd
    simp at hd

/-- Witness for C3 (corrected) at the concrete two-row file with the
duplicated key `E7_2024-03-04`. -/
theorem claim_C3_amended_witness :
    (∀ j, "duplicate employee_id + date combination" ∈
        rowErrsAt envA [badEmailRow, dupKeyRow] j ↔
      rowKey ([badEmailRow, dupKeyRow].getD j []) ∈
        ([badEmailRow, dupKeyRow].take j).map rowKey) ∧
    resDupFile.validRecords = (List.range [badEmailRow, dupKeyRow].length).filterMap (fun j =>
      if rowErrsAt envA [badEmailRow, dupKeyRow] j = []
      then some (normalizeRecord envA ([badEmailRow, dupKeyRow].getD j [])) else none) ∧
    (∀ j, j < [badEmailRow, dupKeyRow].length →
      rowErrsAt envA [badEmailRow, dupKeyRow] j ≠ [] →
      ValidationError.rowError (j + 2) (rowErrsAt envA [badEmailRow, dupKeyRow] j) ∈
        resDupFile.errors) ∧
    (∀ j, j < [badEmailRow, dupKeyRow].length →
      rowErrsAt envA [badEmailRow, dupKeyRow] j = [] →
      normalizeRecord envA ([badEmailRow, dupKeyRow].getD j []) ∈ resDupFile.validRecords) ∧
    (∀ i j, i < j → j < [badEmailRow, dupKeyRow].length →
      rowKey ([badEmailRow, dupKeyRow].getD i []) = rowKey ([badEmailRow, dupKeyRow].getD j []) →
      rowErrsAt envA [badEmailRow, dupKeyRow] j ≠ []) :=
  claim_C3_amended envA [badEmailRow, dupKeyRow] resDupFile (by rfl)

/-- Claim C3 counterexample. In the file `[badEmailRow, dupKeyRow]` the key
`E7_2024-03-04` occurs twice, the first occurrence failing only the email
check; the claim's "the first occurrence's data survives in `validRecords`"
fails: `validRecords` is empty (the second occurrence was rejected as a
duplicate even though the first never made it in). -/
theorem claim_C3_counterexample : ¬ claimC3Survival := by
  intro h
  have hmem := h envA [badEmailRow, dupKeyRow] resDupFile 0 1 (by rfl) (by omega)
    (by decide) (fun m hm => absurd hm (by omega)) (by decide)
  rw [show resDupFile.validRecords = [] from rfl] at hmem
  simp at hmem

end AbrOHR
